import Mathlib

/-!
Shallow embedding of the `machineid` Go package.

The embedding follows `machineid.go` (loadInfo, ID, ProtectedID, protect,
getHardwareId) and `id_unknown.go` (the build-tag default getMachineID).
Go's `(value, error)` returns are modelled with `Except`; the injectable
process-global hooks (`getEnvTypeFunc`, `getMachineIDFunc`, `netInterfaces`)
become an `Env` record; the mutable package globals (`cachedRawID`,
`cachedPrefix`, `initialized`) become a `MachineState` record threaded
explicitly.  Each resolution attempt additionally reports how many times it
invoked each hook, so that claims about "the fallback is (not) invoked" are
statable.
-/

set_option maxRecDepth 100000

set_option maxHeartbeats 1000000

deriving instance DecidableEq for Except

namespace MachineId

/-- Go errors as used by the package: `os.ErrNotExist` (recognised by
`errors.Is(err, os.ErrNotExist)`) versus every other error, carried as its
message string. -/
inductive GoError where
  | notExist
  | msg (s : String)
  deriving DecidableEq

/-- The package globals guarded by `mu`: `cachedRawID`, `cachedPrefix`
(renamed `cachedEnvTag` here), `initialized`. -/
structure MachineState where
  cachedRawID : String
  cachedEnvTag : String
  initialized : Bool
  deriving DecidableEq

/-- A network interface as `getHardwareId` inspects it: its name, whether
`iface.Flags & net.FlagLoopback != 0`, and its hardware address bytes. -/
structure Iface where
  name : String
  loopback : Bool
  hardwareAddr : List Nat
  deriving DecidableEq

/-- The injectable hooks of the package: `getEnvTypeFunc`,
`getMachineIDFunc`, `netInterfaces`. -/
structure Env where
  getEnvType : String
  getMachineID : Except GoError String
  interfaces : Except GoError (List Iface)

/-- How many times a resolution attempt invoked each hook. -/
structure Calls where
  envType : Nat
  machineID : Nat
  hardwareId : Nat
  deriving DecidableEq

/-! ### String helpers (Go `strings` package behaviour) -/

/-- Does `s` start with `pat` (on char lists)? -/
def startsWithChars : List Char → List Char → Bool
  | _, [] => true
  | [], _ :: _ => false
  | c :: cs, p :: ps => c = p && startsWithChars cs ps

/-- Does `s` contain `pat` as a contiguous substring (on char lists)? -/
def hasSubChars (pat : List Char) : List Char → Bool
  | [] => pat.isEmpty
  | c :: cs => startsWithChars (c :: cs) pat || hasSubChars pat cs

/-- Go `strings.Contains s pat`. -/
def strContains (s pat : String) : Bool :=
  hasSubChars pat.toList s.toList

/-- ASCII lowering of one character, as `unicode.ToLower` acts on ASCII.
(The interface names this package compares are ASCII.) -/
def charToLower (c : Char) : Char :=
  if 65 ≤ c.toNat && c.toNat ≤ 90 then Char.ofNat (c.toNat + 32) else c

/-- Go `strings.ToLower`, on ASCII strings. -/
def strToLower (s : String) : String :=
  String.mk (s.toList.map charToLower)

/-- Go string comparison `a <= b`: lexicographic on the byte (equivalently,
for UTF-8, code-point) sequence. -/
def charListLe : List Char → List Char → Bool
  | [], _ => true
  | _ :: _, [] => false
  | c :: cs, d :: ds => c.toNat < d.toNat || (c = d && charListLe cs ds)

/-- Go `a <= b` on strings. -/
def strLe (a b : String) : Bool :=
  charListLe a.toList b.toList

/-- Code points with Go's `unicode.IsSpace` (White_Space) property, as used
by `strings.TrimSpace`. -/
def goIsSpace (c : Char) : Bool :=
  c.toNat = 9 || c.toNat = 10 || c.toNat = 11 || c.toNat = 12 || c.toNat = 13 ||
  c.toNat = 32 || c.toNat = 133 || c.toNat = 160 || c.toNat = 0x1680 ||
  (0x2000 ≤ c.toNat && c.toNat ≤ 0x200a) || c.toNat = 0x2028 || c.toNat = 0x2029 ||
  c.toNat = 0x202f || c.toNat = 0x205f || c.toNat = 0x3000

/-- Go `strings.TrimSpace`: drop leading and trailing white space. -/
def trimSpace (s : String) : String :=
  String.mk (((s.toList.dropWhile goIsSpace).reverse.dropWhile goIsSpace).reverse)

/-! ### SHA-256 (`crypto/sha256`), on lists of byte values -/

/-- Truncate to a 32-bit word. -/
def w32 (n : Nat) : Nat := n % 4294967296

/-- Rotate a 32-bit word right by `n`. -/
def rotr (n x : Nat) : Nat := w32 (x >>> n ||| x <<< (32 - n))

def bigSigma0 (x : Nat) : Nat := rotr 2 x ^^^ rotr 13 x ^^^ rotr 22 x

def bigSigma1 (x : Nat) : Nat := rotr 6 x ^^^ rotr 11 x ^^^ rotr 25 x

def smlSigma0 (x : Nat) : Nat := rotr 7 x ^^^ rotr 18 x ^^^ (x >>> 3)

def smlSigma1 (x : Nat) : Nat := rotr 17 x ^^^ rotr 19 x ^^^ (x >>> 10)

def chFn (x y z : Nat) : Nat := (x &&& y) ^^^ ((4294967295 - x) &&& z)

def majFn (x y z : Nat) : Nat := (x &&& y) ^^^ (x &&& z) ^^^ (y &&& z)

/-- The 64 SHA-256 round constants of FIPS 180-4 (decimal). -/
def kConst : List Nat :=
  [1116352408, 1899447441, 3049323471, 3921009573, 961987163, 1508970993,
   2453635748, 2870763221, 3624381080, 310598401, 607225278, 1426881987,
   1925078388, 2162078206, 2614888103, 3248222580, 3835390401, 4022224774,
   264347078, 604807628, 770255983, 1249150122, 1555081692, 1996064986,
   2554220882, 2821834349, 2952996808, 3210313671, 3336571891, 3584528711,
   113926993, 338241895, 666307205, 773529912, 1294757372, 1396182291,
   1695183700, 1986661051, 2177026350, 2456956037, 2730485921, 2820302411,
   3259730800, 3345764771, 3516065817, 3600352804, 4094571909, 275423344,
   430227734, 506948616, 659060556, 883997877, 958139571, 1322822218,
   1537002063, 1747873779, 1955562222, 2024104815, 2227730452, 2361852424,
   2428436474, 2756734187, 3204031479, 3329325298]

/-- The eight 32-bit working variables / hash words. -/
structure Hash8 where
  a : Nat
  b : Nat
  c : Nat
  d : Nat
  e : Nat
  f : Nat
  g : Nat
  h : Nat
  deriving DecidableEq

/-- SHA-256 initial hash value of FIPS 180-4 (decimal). -/
def initH : Hash8 :=
  ⟨1779033703, 3144134277, 1013904242, 2773480762,
   1359893119, 2600822924, 528734635, 1541459225⟩

/-- One SHA-256 compression round. -/
def shaRound (s : Hash8) (k w : Nat) : Hash8 :=
  let t1 := w32 (s.h + bigSigma1 s.e + chFn s.e s.f s.g + k + w)
  let t2 := w32 (bigSigma0 s.a + majFn s.a s.b s.c)
  ⟨w32 (t1 + t2), s.a, s.b, s.c, w32 (s.d + t1), s.e, s.f, s.g⟩

/-- Group bytes into big-endian 32-bit words. -/
def toWords : List Nat → List Nat
  | b0 :: b1 :: b2 :: b3 :: rest => (b0 * 16777216 + b1 * 65536 + b2 * 256 + b3) :: toWords rest
  | _ => []

/-- Extend the 16 message words to the full schedule, `n` more words. -/
def extendSchedule : Nat → List Nat → List Nat
  | 0, ws => ws
  | n + 1, ws =>
    let t := ws.length
    let nw := w32 (smlSigma1 (ws.getD (t - 2) 0) + ws.getD (t - 7) 0 +
      smlSigma0 (ws.getD (t - 15) 0) + ws.getD (t - 16) 0)
    extendSchedule n (ws ++ [nw])

/-- Compress one 64-byte block into the running hash. -/
def processBlock (hv : Hash8) (block : List Nat) : Hash8 :=
  let ws := extendSchedule 48 (toWords block)
  let s := (kConst.zip ws).foldl (fun st kw => shaRound st kw.1 kw.2) hv
  ⟨w32 (hv.a + s.a), w32 (hv.b + s.b), w32 (hv.c + s.c), w32 (hv.d + s.d),
   w32 (hv.e + s.e), w32 (hv.f + s.f), w32 (hv.g + s.g), w32 (hv.h + s.h)⟩

/-- The eight big-endian bytes of the 64-bit message bit length. -/
def lenBytes (n : Nat) : List Nat :=
  [n / 72057594037927936 % 256, n / 281474976710656 % 256, n / 1099511627776 % 256,
   n / 4294967296 % 256, n / 16777216 % 256, n / 65536 % 256, n / 256 % 256, n % 256]

/-- SHA-256 padding: `0x80`, zeros to 56 mod 64, then the bit length. -/
def padded (msg : List Nat) : List Nat :=
  let l := msg.length
  let zeros := (120 - (l + 1) % 64) % 64
  msg ++ [128] ++ List.replicate zeros 0 ++ lenBytes (8 * l)

/-- Split into 64-byte chunks (fuel = number of chunks). -/
def chunksOf64 (l : List Nat) : Nat → List (List Nat)
  | 0 => []
  | n + 1 => l.take 64 :: chunksOf64 (l.drop 64) n

/-- SHA-256 of a byte list, as the eight hash words. -/
def sha256Words (msg : List Nat) : Hash8 :=
  let p := padded msg
  (chunksOf64 p (p.length / 64)).foldl processBlock initH

/-- Big-endian bytes of a 32-bit word. -/
def wordBytes (w : Nat) : List Nat :=
  [w / 16777216 % 256, w / 65536 % 256, w / 256 % 256, w % 256]

/-- The 32 digest bytes. -/
def hash8Bytes (s : Hash8) : List Nat :=
  wordBytes s.a ++ wordBytes s.b ++ wordBytes s.c ++ wordBytes s.d ++
  wordBytes s.e ++ wordBytes s.f ++ wordBytes s.g ++ wordBytes s.h

/-- Lowercase hex digit, as in Go's `encoding/hex` and `net` tables. -/
def hexDigitChar (n : Nat) : Char :=
  if n < 10 then Char.ofNat (48 + n) else Char.ofNat (87 + n)

/-- Two lowercase hex characters of a byte. -/
def hexByte (b : Nat) : String :=
  String.mk [hexDigitChar (b / 16 % 16), hexDigitChar (b % 16)]

/-- Go `hex.EncodeToString`. -/
def hexEncode (bs : List Nat) : String :=
  String.join (bs.map hexByte)

/-- Lowercase hex SHA-256 digest of a byte list. -/
def sha256Hex (msg : List Nat) : String :=
  hexEncode (hash8Bytes (sha256Words msg))

/-- UTF-8 encoding of one character (Go strings are UTF-8 bytes). -/
def utf8Bytes (c : Char) : List Nat :=
  let n := c.toNat
  if n < 0x80 then [n]
  else if n < 0x800 then [0xc0 ||| (n >>> 6), 0x80 ||| (n &&& 0x3f)]
  else if n < 0x10000 then
    [0xe0 ||| (n >>> 12), 0x80 ||| ((n >>> 6) &&& 0x3f), 0x80 ||| (n &&& 0x3f)]
  else
    [0xf0 ||| (n >>> 18), 0x80 ||| ((n >>> 12) &&& 0x3f),
     0x80 ||| ((n >>> 6) &&& 0x3f), 0x80 ||| (n &&& 0x3f)]

/-- The bytes of a string, as Go's `[]byte(s)`. -/
def strBytes (s : String) : List Nat :=
  (s.toList.map utf8Bytes).flatten

/-! ### The package functions -/

/-- `protect`: trim, reject empty, SHA-256, lowercase hex. -/
def protect (s : String) : Except GoError String :=
  let t := trimSpace s
  if t = "" then Except.error (GoError.msg "empty machine id")
  else Except.ok (sha256Hex (strBytes t))

/-- Go `net.HardwareAddr.String()`: colon-joined lowercase hex bytes,
empty string for an empty address. -/
def macString (addr : List Nat) : String :=
  String.intercalate ":" (addr.map hexByte)

/-- Does `getHardwareId` keep this interface?  Not loopback, non-empty MAC,
and the lowercase name contains none of `docker`, `veth`, `tun`, `tap`. -/
def keepIface (i : Iface) : Bool :=
  !(i.loopback || i.hardwareAddr.isEmpty) &&
  !(strContains (strToLower i.name) "docker" || strContains (strToLower i.name) "veth" ||
    strContains (strToLower i.name) "tun" || strContains (strToLower i.name) "tap")

/-- The MAC strings collected by `getHardwareId`'s loop, in enumeration
order. -/
def collectMacs (ifaces : List Iface) : List String :=
  (ifaces.filter keepIface).map (fun i => macString i.hardwareAddr)

/-- Go `sort.Strings`: sort ascending.  Modelled with insertion sort, which
produces the same (sorted) output on every input as Go's pattern-defeating
quicksort does, the order on strings being linear. -/
def sortStrings (l : List String) : List String :=
  l.insertionSort (fun a b => strLe a b = true)

/-- `getHardwareId`: enumerate interfaces, filter, sort MACs, join with
`","`; error when no interface survives. -/
def getHardwareId (res : Except GoError (List Iface)) : Except GoError String :=
  match res with
  | Except.error e => Except.error e
  | Except.ok ifaces =>
    let macs := sortStrings (collectMacs ifaces)
    if macs.isEmpty then
      Except.error (GoError.msg "no valid network interfaces found for hardware ID fallback")
    else Except.ok (String.intercalate "," macs)

/-- `loadInfo`: fast path when initialized; otherwise query the environment
classifier and the primary source, fall back to `getHardwareId` on
`os.ErrNotExist` or an empty id, fail hard on any other primary error, and
cache on success.  Also reports hook invocation counts. -/
def loadInfo (env : Env) (st : MachineState) :
    Except GoError Unit × MachineState × Calls :=
  if st.initialized then (Except.ok (), st, ⟨0, 0, 0⟩)
  else
    let tag := env.getEnvType
    match env.getMachineID with
    | Except.ok id =>
      if id = "" then
        match getHardwareId env.interfaces with
        | Except.ok hid => (Except.ok (), ⟨hid, tag, true⟩, ⟨1, 1, 1⟩)
        | Except.error e2 => (Except.error e2, st, ⟨1, 1, 1⟩)
      else (Except.ok (), ⟨id, tag, true⟩, ⟨1, 1, 0⟩)
    | Except.error e =>
      if e = GoError.notExist then
        match getHardwareId env.interfaces with
        | Except.ok hid => (Except.ok (), ⟨hid, tag, true⟩, ⟨1, 1, 1⟩)
        | Except.error e2 => (Except.error e2, st, ⟨1, 1, 1⟩)
      else (Except.error e, st, ⟨1, 1, 0⟩)

/-- `ID()`: resolve, hash the cached raw id, return `"<env>:<hash>"`. -/
def ID (env : Env) (st : MachineState) : Except GoError String × MachineState :=
  match loadInfo env st with
  | (Except.error e, st2, _) => (Except.error e, st2)
  | (Except.ok _, st2, _) =>
    match protect st2.cachedRawID with
    | Except.error e => (Except.error e, st2)
    | Except.ok hsh => (Except.ok (st2.cachedEnvTag ++ ":" ++ hsh), st2)

/-- `ProtectedID(appID)`: resolve, hash the cached raw id salted with the
app id, return `"<env>:<hash>"`. -/
def ProtectedID (env : Env) (appID : String) (st : MachineState) :
    Except GoError String × MachineState :=
  match loadInfo env st with
  | (Except.error e, st2, _) => (Except.error e, st2)
  | (Except.ok _, st2, _) =>
    match protect (st2.cachedRawID ++ ":" ++ appID) with
    | Except.error e => (Except.error e, st2)
    | Except.ok hsh => (Except.ok (st2.cachedEnvTag ++ ":" ++ hsh), st2)

/-- `id_unknown.go`'s `getMachineID` for unsupported platforms. -/
def getMachineIDUnknown : Except GoError String :=
  Except.error (GoError.msg "os not supported")

/-! ### Properties of the string order used by `sort.Strings` -/

theorem char_toNat_inj {a b : Char} (h : a.toNat = b.toNat) : a = b := by
  apply Char.eq_of_val_eq
  apply UInt32.toNat.inj
  exact h

theorem charListLe_total : ∀ a b : List Char, charListLe a b = true ∨ charListLe b a = true
  | [], _ => Or.inl rfl
  | _ :: _, [] => Or.inr rfl
  | c :: cs, d :: ds => by
    rcases Nat.lt_trichotomy c.toNat d.toNat with h | h | h
    · exact Or.inl (by simp [charListLe, h])
    · have hcd : c = d := char_toNat_inj h
      subst hcd
      rcases charListLe_total cs ds with h2 | h2
      · exact Or.inl (by simp [charListLe, h2])
      · exact Or.inr (by simp [charListLe, h2])
    · exact Or.inr (by simp [charListLe, h])

theorem charListLe_trans : ∀ {a b c : List Char},
    charListLe a b = true → charListLe b c = true → charListLe a c = true
  | [], _, _, _, _ => rfl
  | x :: xs, [], _, hab, _ => by simp [charListLe] at hab
  | _ :: _, _ :: _, [], _, hbc => by simp [charListLe] at hbc
  | x :: xs, y :: ys, z :: zs, hab, hbc => by
    simp only [charListLe, Bool.or_eq_true, Bool.and_eq_true, decide_eq_true_eq] at hab hbc ⊢
    rcases hab with h1 | ⟨rfl, h1⟩
    · rcases hbc with h2 | ⟨rfl, h2⟩
      · exact Or.inl (Nat.lt_trans h1 h2)
      · exact Or.inl h1
    · rcases hbc with h2 | ⟨rfl, h2⟩
      · exact Or.inl h2
      · exact Or.inr ⟨rfl, charListLe_trans h1 h2⟩

theorem charListLe_antisymm : ∀ {a b : List Char},
    charListLe a b = true → charListLe b a = true → a = b
  | [], [], _, _ => rfl
  | [], _ :: _, _, hba => by simp [charListLe] at hba
  | _ :: _, [], hab, _ => by simp [charListLe] at hab
  | x :: xs, y :: ys, hab, hba => by
    simp only [charListLe, Bool.or_eq_true, Bool.and_eq_true, decide_eq_true_eq] at hab hba
    rcases hab with h1 | ⟨rfl, h1⟩
    · rcases hba with h2 | ⟨heq, h2⟩
      · omega
      · subst heq; omega
    · rcases hba with h2 | ⟨_, h2⟩
      · omega
      · exact congrArg (x :: ·) (charListLe_antisymm h1 h2)

/-- The relation `sortStrings` sorts by. -/
theorem strLe_total (a b : String) : strLe a b = true ∨ strLe b a = true :=
  charListLe_total a.toList b.toList

theorem strLe_trans {a b c : String} (h1 : strLe a b = true) (h2 : strLe b c = true) :
    strLe a c = true :=
  charListLe_trans h1 h2

theorem strLe_antisymm {a b : String} (h1 : strLe a b = true) (h2 : strLe b a = true) :
    a = b :=
  String.ext (charListLe_antisymm h1 h2)

instance : IsTotal String (fun a b => strLe a b = true) := ⟨strLe_total⟩

instance : IsTrans String (fun a b => strLe a b = true) := ⟨fun _ _ _ => strLe_trans⟩

instance : IsAntisymm String (fun a b => strLe a b = true) := ⟨fun _ _ => strLe_antisymm⟩

theorem sortStrings_perm (l : List String) : (sortStrings l).Perm l :=
  List.perm_insertionSort _ l

theorem sortStrings_sorted (l : List String) :
    List.Sorted (fun a b => strLe a b = true) (sortStrings l) :=
  List.sorted_insertionSort _ l

theorem sortStrings_eq_of_perm {l₁ l₂ : List String} (h : l₁.Perm l₂) :
    sortStrings l₁ = sortStrings l₂ :=
  List.eq_of_perm_of_sorted
    ((sortStrings_perm l₁).trans (h.trans (sortStrings_perm l₂).symm))
    (sortStrings_sorted l₁) (sortStrings_sorted l₂)

theorem sortStrings_eq_nil_iff (l : List String) : sortStrings l = [] ↔ l = [] := by
  constructor
  · intro h
    have := (sortStrings_perm l).length_eq
    rw [h] at this
    exact List.length_eq_zero.mp this.symm
  · intro h
    subst h
    rfl

/-! ### Trimming and hex-character lemmas -/

theorem mem_dropWhile_of_not {p : Char → Bool} {c : Char} :
    ∀ {l : List Char}, c ∈ l → p c = false → c ∈ l.dropWhile p := by
  intro l
  induction l with
  | nil => intro hc _; cases hc
  | cons a as ih =>
    intro hc hp
    rw [List.dropWhile_cons]
    by_cases hpa : p a = true
    · simp only [hpa, if_true]
      rcases List.mem_cons.mp hc with rfl | hmem
      · rw [hp] at hpa; cases hpa
      · exact ih hmem hp
    · simp only [Bool.not_eq_true] at hpa
      simp only [hpa, Bool.false_eq_true, if_false]
      exact hc

/-- A string containing a non-space character does not trim to empty. -/
theorem trimSpace_ne_empty {s : String} {c : Char} (hc : c ∈ s.toList)
    (hns : goIsSpace c = false) : trimSpace s ≠ "" := by
  intro h
  have hdata : (((s.toList.dropWhile goIsSpace).reverse.dropWhile goIsSpace).reverse) = [] := by
    have := congrArg String.data h
    simpa [trimSpace] using this
  have h1 : c ∈ s.toList.dropWhile goIsSpace := mem_dropWhile_of_not hc hns
  have h2 : c ∈ (s.toList.dropWhile goIsSpace).reverse := List.mem_reverse.mpr h1
  have h3 : c ∈ (s.toList.dropWhile goIsSpace).reverse.dropWhile goIsSpace :=
    mem_dropWhile_of_not h2 hns
  have h4 := List.ne_nil_of_mem h3
  rw [List.reverse_eq_nil_iff] at hdata
  exact h4 hdata

/-- A string trims to empty exactly when all its characters are white space. -/
theorem trimSpace_eq_empty_iff (s : String) :
    trimSpace s = "" ↔ ∀ c ∈ s.toList, goIsSpace c = true := by
  constructor
  · intro h c hc
    by_contra hns
    exact trimSpace_ne_empty hc (Bool.not_eq_true _ ▸ hns) h
  · intro h
    have hd : s.data.dropWhile goIsSpace = [] := List.dropWhile_eq_nil_iff.mpr h
    simp [trimSpace, String.toList, hd]

/-- The `go` accumulator of `String.intercalate` is a prefix of the result. -/
theorem intercalate_go_data (s : String) :
    ∀ (l : List String) (acc : String),
      ∃ t : List Char, (String.intercalate.go acc s l).data = acc.data ++ t := by
  intro l
  induction l with
  | nil => intro acc; exact ⟨[], by simp [String.intercalate.go]⟩
  | cons a as ih =>
    intro acc
    obtain ⟨t, ht⟩ := ih (acc ++ s ++ a)
    refine ⟨s.data ++ a.data ++ t, ?_⟩
    rw [String.intercalate.go, ht]
    simp [String.data_append]

/-- The first string of a non-empty list is a prefix of their intercalation. -/
theorem intercalate_cons_data (s a : String) (as : List String) :
    ∃ t : List Char, (String.intercalate s (a :: as)).data = a.data ++ t := by
  rw [String.intercalate]
  exact intercalate_go_data s as a

/-- Hex digits produced by `hexDigitChar` on values below 16 are lowercase
hex characters. -/
def isLowerHex (c : Char) : Bool :=
  (48 ≤ c.toNat && c.toNat ≤ 57) || (97 ≤ c.toNat && c.toNat ≤ 102)

theorem hexDigitChar_isLowerHex : ∀ m : Fin 16, isLowerHex (hexDigitChar m.val) = true := by
  decide

theorem hexDigitChar_not_space : ∀ m : Fin 16, goIsSpace (hexDigitChar m.val) = false := by
  decide

theorem isLowerHex_of_lt {m : Nat} (h : m < 16) : isLowerHex (hexDigitChar m) = true :=
  hexDigitChar_isLowerHex ⟨m, h⟩

theorem not_space_of_lt {m : Nat} (h : m < 16) : goIsSpace (hexDigitChar m) = false :=
  hexDigitChar_not_space ⟨m, h⟩

/-- `macString` of a non-empty address starts with a hex digit, hence
contains a non-space character. -/
theorem macString_has_non_space {addr : List Nat} (h : addr ≠ []) :
    ∃ c ∈ (macString addr).toList, goIsSpace c = false := by
  obtain ⟨b, bs, rfl⟩ := List.exists_cons_of_ne_nil h
  obtain ⟨t, ht⟩ := intercalate_cons_data ":" (hexByte b) (bs.map hexByte)
  refine ⟨hexDigitChar (b / 16 % 16), ?_, not_space_of_lt (Nat.mod_lt _ (by norm_num))⟩
  show _ ∈ (macString (b :: bs)).data
  rw [macString, List.map_cons, ht]
  exact List.mem_append_left _ (List.mem_cons_self _ _)

theorem hexByte_data (b : Nat) :
    (hexByte b).data = [hexDigitChar (b / 16 % 16), hexDigitChar (b % 16)] := rfl

theorem foldl_append_data (l : List String) :
    ∀ acc : String, (l.foldl (fun r s => r ++ s) acc).data =
      acc.data ++ (l.map String.data).flatten := by
  induction l with
  | nil => intro acc; simp
  | cons a as ih => intro acc; simp [ih, String.data_append]

theorem hexEncode_data (bs : List Nat) :
    (hexEncode bs).data =
      (bs.map (fun b => [hexDigitChar (b / 16 % 16), hexDigitChar (b % 16)])).flatten := by
  rw [hexEncode, String.join, foldl_append_data]
  simp [List.map_map, Function.comp_def, hexByte_data]

theorem flatten_pairs_length (bs : List Nat) :
    ((bs.map (fun b => [hexDigitChar (b / 16 % 16), hexDigitChar (b % 16)])).flatten).length =
      2 * bs.length := by
  induction bs with
  | nil => rfl
  | cons b tl ih =>
    simp only [List.map_cons, List.flatten_cons, List.length_append, List.length_cons,
      List.length_nil, ih]
    omega

theorem hexEncode_length (bs : List Nat) : (hexEncode bs).length = 2 * bs.length := by
  show (hexEncode bs).data.length = _
  rw [hexEncode_data, flatten_pairs_length]

theorem hexEncode_lower (bs : List Nat) :
    ∀ c ∈ (hexEncode bs).data, isLowerHex c = true := by
  intro c hc
  rw [hexEncode_data, List.mem_flatten] at hc
  obtain ⟨l, hl, hcl⟩ := hc
  rw [List.mem_map] at hl
  obtain ⟨b, _, rfl⟩ := hl
  simp only [List.mem_cons, List.not_mem_nil, or_false] at hcl
  rcases hcl with rfl | rfl
  · exact isLowerHex_of_lt (Nat.mod_lt _ (by norm_num))
  · exact isLowerHex_of_lt (Nat.mod_lt _ (by norm_num))

theorem hash8Bytes_length (s : Hash8) : (hash8Bytes s).length = 32 := rfl

/-- The digest string always has 64 characters. -/
theorem sha256Hex_length (msg : List Nat) : (sha256Hex msg).length = 64 := by
  rw [sha256Hex, hexEncode_length, hash8Bytes_length]

/-- Every character of the digest string is a lowercase hex digit. -/
theorem sha256Hex_lower (msg : List Nat) :
    ∀ c ∈ (sha256Hex msg).data, isLowerHex c = true :=
  hexEncode_lower _

/-- A successful `getHardwareId` result survives `protect`'s trimming. -/
theorem getHardwareId_ok_trim {res : Except GoError (List Iface)} {hid : String}
    (h : getHardwareId res = Except.ok hid) : trimSpace hid ≠ "" := by
  cases res with
  | error e => simp [getHardwareId] at h
  | ok ifaces =>
    rw [getHardwareId] at h
    by_cases he : (sortStrings (collectMacs ifaces)).isEmpty = true
    · simp [he] at h
    · simp only [Bool.not_eq_true] at he
      simp only [he, Bool.false_eq_true, if_false, Except.ok.injEq] at h
      have hne : sortStrings (collectMacs ifaces) ≠ [] := by
        intro hnil
        rw [hnil] at he
        cases he
      obtain ⟨m0, rest, hm⟩ := List.exists_cons_of_ne_nil hne
      have hmem : m0 ∈ collectMacs ifaces :=
        (sortStrings_perm (collectMacs ifaces)).subset (hm ▸ List.mem_cons_self m0 rest)
      rw [collectMacs, List.mem_map] at hmem
      obtain ⟨i, hi, hmac⟩ := hmem
      have hkeep : keepIface i = true := List.of_mem_filter hi
      have haddr : i.hardwareAddr ≠ [] := by
        intro hnil
        rw [keepIface, hnil] at hkeep
        simp at hkeep
      obtain ⟨c, hcm, hcs⟩ := macString_has_non_space haddr
      rw [hmac] at hcm
      obtain ⟨t, ht⟩ := intercalate_cons_data "," m0 rest
      rw [← h, hm]
      have hcmem : c ∈ (String.intercalate "," (m0 :: rest)).toList := by
        show c ∈ (String.intercalate "," (m0 :: rest)).data
        rw [ht]
        exact List.mem_append_left t hcm
      exact trimSpace_ne_empty hcmem hcs

/-- The fast path of `loadInfo`: an initialized state returns at once. -/
theorem loadInfo_fast_path (env : Env) (st : MachineState)
    (h : st.initialized = true) :
    loadInfo env st = (Except.ok (), st, ⟨0, 0, 0⟩) := by
  simp [loadInfo, h]

/-! ### Claim theorems -/

/-- C1: In `loadInfo`, the hardware fallback is invoked exactly when the
primary source fails with `os.ErrNotExist` or succeeds with the empty
string, and in that case the fallback's own result (success or failure)
becomes the result of the resolution attempt. -/
theorem loadInfo_fallback_iff (env : Env) (st : MachineState)
    (hinit : st.initialized = false) :
    ((loadInfo env st).2.2.hardwareId = 1 ↔
      (env.getMachineID = Except.error GoError.notExist ∨
       env.getMachineID = Except.ok "")) ∧
    ((env.getMachineID = Except.error GoError.notExist ∨
      env.getMachineID = Except.ok "") →
      (loadInfo env st).1 = (getHardwareId env.interfaces).map (fun _ => ())) := by
  cases hm : env.getMachineID with
  | ok id =>
    by_cases hid : id = ""
    · subst hid
      cases hh : getHardwareId env.interfaces with
      | ok v => simp [loadInfo, hinit, hm, hh, Except.map]
      | error e => simp [loadInfo, hinit, hm, hh, Except.map]
    · simp [loadInfo, hinit, hm, hid]
  | error e =>
    by_cases hne : e = GoError.notExist
    · subst hne
      cases hh : getHardwareId env.interfaces with
      | ok v => simp [loadInfo, hinit, hm, hh, Except.map]
      | error e2 => simp [loadInfo, hinit, hm, hh, Except.map]
    · simp [loadInfo, hinit, hm, hne]

/-- Witness for C1 at a concrete not-found primary and one real interface. -/
theorem loadInfo_fallback_iff_witness :
    (loadInfo ⟨"physical", Except.error GoError.notExist,
        Except.ok [⟨"eth0", false, [170, 187, 204, 221, 238, 255]⟩]⟩
      ⟨"", "", false⟩).1 =
    (getHardwareId
        (Except.ok [⟨"eth0", false, [170, 187, 204, 221, 238, 255]⟩])).map
      (fun _ => ()) :=
  (loadInfo_fallback_iff
    ⟨"physical", Except.error GoError.notExist,
      Except.ok [⟨"eth0", false, [170, 187, 204, 221, 238, 255]⟩]⟩
    ⟨"", "", false⟩ rfl).2 (Or.inl rfl)

/-- C2: a primary-source error other than not-found is returned verbatim,
with no fallback attempt and the state left untouched (still
uninitialized). -/
theorem loadInfo_fatal_error (env : Env) (st : MachineState) (e : GoError)
    (hinit : st.initialized = false)
    (hm : env.getMachineID = Except.error e)
    (hne : e ≠ GoError.notExist) :
    loadInfo env st = (Except.error e, st, ⟨1, 1, 0⟩) := by
  simp [loadInfo, hinit, hm, hne]

/-- Witness for C2 at a concrete permission-denied primary failure. -/
theorem loadInfo_fatal_error_witness :
    loadInfo ⟨"physical", Except.error (GoError.msg "permission denied"),
        Except.ok [⟨"eth0", false, [170, 187, 204, 221, 238, 255]⟩]⟩
      ⟨"", "", false⟩ =
    (Except.error (GoError.msg "permission denied"), ⟨"", "", false⟩, ⟨1, 1, 0⟩) :=
  loadInfo_fatal_error
    ⟨"physical", Except.error (GoError.msg "permission denied"),
      Except.ok [⟨"eth0", false, [170, 187, 204, 221, 238, 255]⟩]⟩
    ⟨"", "", false⟩ (GoError.msg "permission denied") rfl rfl (by decide)

/-- C3: the state machine is monotone (initialized never reverts) and
failures are atomic: every error return leaves the cached fields exactly as
they were, and an uninitialized state makes any call re-query the
environment classifier and the primary source. -/
theorem loadInfo_monotone_atomic (env env2 : Env) (st : MachineState) :
    (∀ e, (loadInfo env st).1 = Except.error e →
      (loadInfo env st).2.1 = st ∧ st.initialized = false) ∧
    ((loadInfo env st).2.1.initialized = false → st.initialized = false) ∧
    (st.initialized = true → (loadInfo env st).2.1 = st) ∧
    (st.initialized = false →
      (loadInfo env2 st).2.2.envType = 1 ∧ (loadInfo env2 st).2.2.machineID = 1) := by
  refine ⟨?_, ?_, ?_, ?_⟩
  · intro e he
    by_cases hi : st.initialized = true
    · simp [loadInfo, hi] at he
    · simp only [Bool.not_eq_true] at hi
      refine ⟨?_, hi⟩
      cases hm : env.getMachineID with
      | ok id =>
        by_cases hid : id = ""
        · subst hid
          cases hh : getHardwareId env.interfaces with
          | ok v => simp [loadInfo, hi, hm, hh] at he
          | error e2 => simp [loadInfo, hi, hm, hh]
        · simp [loadInfo, hi, hm, hid] at he
      | error e1 =>
        by_cases hne : e1 = GoError.notExist
        · subst hne
          cases hh : getHardwareId env.interfaces with
          | ok v => simp [loadInfo, hi, hm, hh] at he
          | error e2 => simp [loadInfo, hi, hm, hh]
        · simp [loadInfo, hi, hm, hne]
  · intro hafter
    by_contra hbefore
    simp only [Bool.not_eq_false] at hbefore
    simp [loadInfo, hbefore] at hafter
  · intro hi
    simp [loadInfo, hi]
  · intro hi
    cases hm : env2.getMachineID with
    | ok id =>
      by_cases hid : id = ""
      · subst hid
        cases hh : getHardwareId env2.interfaces with
        | ok v => simp [loadInfo, hi, hm, hh]
        | error e2 => simp [loadInfo, hi, hm, hh]
      · simp [loadInfo, hi, hm, hid]
    | error e1 =>
      by_cases hne : e1 = GoError.notExist
      · subst hne
        cases hh : getHardwareId env2.interfaces with
        | ok v => simp [loadInfo, hi, hm, hh]
        | error e2 => simp [loadInfo, hi, hm, hh]
      · simp [loadInfo, hi, hm, hne]

/-- Witness for C3: a failing fallback leaves the concrete state intact. -/
theorem loadInfo_monotone_atomic_witness :
    (loadInfo ⟨"physical", Except.error GoError.notExist, Except.ok []⟩
      ⟨"", "", false⟩).2.1 = ⟨"", "", false⟩ :=
  ((loadInfo_monotone_atomic
      ⟨"physical", Except.error GoError.notExist, Except.ok []⟩
      ⟨"physical", Except.error GoError.notExist, Except.ok []⟩
      ⟨"", "", false⟩).1
    (GoError.msg "no valid network interfaces found for hardware ID fallback")
    (by decide)).1

/-- C4: after a successful resolution, every further `loadInfo` call on the
resulting state returns success immediately with zero hook invocations and
an unchanged state, whatever the hooks now are. -/
theorem loadInfo_idempotent (env env2 : Env) (st : MachineState)
    (h : (loadInfo env st).1 = Except.ok ()) :
    loadInfo env2 (loadInfo env st).2.1 =
      (Except.ok (), (loadInfo env st).2.1, ⟨0, 0, 0⟩) := by
  have hinit : (loadInfo env st).2.1.initialized = true := by
    by_cases hi : st.initialized = true
    · simp [loadInfo, hi]
    · simp only [Bool.not_eq_true] at hi
      cases hm : env.getMachineID with
      | ok id =>
        by_cases hid : id = ""
        · subst hid
          cases hh : getHardwareId env.interfaces with
          | ok v => simp [loadInfo, hi, hm, hh]
          | error e2 => simp [loadInfo, hi, hm, hh] at h
        · simp [loadInfo, hi, hm, hid]
      | error e1 =>
        by_cases hne : e1 = GoError.notExist
        · subst hne
          cases hh : getHardwareId env.interfaces with
          | ok v => simp [loadInfo, hi, hm, hh]
          | error e2 => simp [loadInfo, hi, hm, hh] at h
        · simp [loadInfo, hi, hm, hne] at h
  exact loadInfo_fast_path env2 _ hinit

/-- Witness for C4 at a concrete successful primary resolution. -/
theorem loadInfo_idempotent_witness :
    loadInfo ⟨"vm", Except.error (GoError.msg "would fail now"), Except.ok []⟩
      (loadInfo ⟨"test-env", Except.ok "unique-id", Except.ok []⟩
        ⟨"", "", false⟩).2.1 =
    (Except.ok (),
      (loadInfo ⟨"test-env", Except.ok "unique-id", Except.ok []⟩
        ⟨"", "", false⟩).2.1, ⟨0, 0, 0⟩) :=
  loadInfo_idempotent ⟨"test-env", Except.ok "unique-id", Except.ok []⟩
    ⟨"vm", Except.error (GoError.msg "would fail now"), Except.ok []⟩
    ⟨"", "", false⟩ (by decide)

/-- C5: `protect` trims white space first, rejects an input that trims to
empty (so hashing `"   "` fails), and otherwise returns the lowercase hex
SHA-256 digest of the trimmed input; on `"test-id"` it produces exactly the
standard SHA-256 digest of those bytes. -/
theorem protect_spec :
    (∀ s : String, protect s =
      if trimSpace s = "" then Except.error (GoError.msg "empty machine id")
      else Except.ok (sha256Hex (strBytes (trimSpace s)))) ∧
    protect "   " = Except.error (GoError.msg "empty machine id") ∧
    protect "test-id" =
      Except.ok "6cc41d5ec590ab78cccecf81ef167d418c309a4598e8e45fef78039f7d9aa9fe" :=
  ⟨fun _ => rfl, by decide, by decide⟩

/-- Witness for C5: the reference digest of `"test-id"`. -/
theorem protect_spec_witness :
    protect "test-id" =
      Except.ok "6cc41d5ec590ab78cccecf81ef167d418c309a4598e8e45fef78039f7d9aa9fe" :=
  protect_spec.2.2

/-- C6: `getHardwareId` keeps an interface's MAC exactly when it is not
loopback, has a non-empty hardware address, and its lowercase name contains
none of `docker`, `veth`, `tun`, `tap`; it fails with the "no valid
interfaces" error exactly when no interface survives; on the list
`{lo, docker0, veth1234, eth0}` it returns `"aa:bb:cc:dd:ee:ff"`. -/
theorem getHardwareId_filter_spec :
    (∀ i : Iface, keepIface i = true ↔
      (i.loopback = false ∧ i.hardwareAddr ≠ [] ∧
       strContains (strToLower i.name) "docker" = false ∧
       strContains (strToLower i.name) "veth" = false ∧
       strContains (strToLower i.name) "tun" = false ∧
       strContains (strToLower i.name) "tap" = false)) ∧
    (∀ ifaces : List Iface,
      (getHardwareId (Except.ok ifaces) =
          Except.error
            (GoError.msg "no valid network interfaces found for hardware ID fallback") ↔
        ifaces.filter keepIface = [])) ∧
    getHardwareId (Except.ok
        [⟨"lo", true, [0, 0, 0, 0, 0, 0]⟩, ⟨"docker0", false, [2, 66, 0, 0, 0, 0]⟩,
         ⟨"veth1234", false, [2, 66, 0, 0, 0, 1]⟩,
         ⟨"eth0", false, [170, 187, 204, 221, 238, 255]⟩]) =
      Except.ok "aa:bb:cc:dd:ee:ff" := by
  refine ⟨?_, ?_, by decide⟩
  · intro i
    have hie : i.hardwareAddr.isEmpty = false ↔ i.hardwareAddr ≠ [] := by
      cases i.hardwareAddr <;> simp
    simp only [keepIface, Bool.and_eq_true, Bool.not_eq_true', Bool.or_eq_false_iff, hie]
    tauto
  · intro ifaces
    have hmac : sortStrings (collectMacs ifaces) = [] ↔ ifaces.filter keepIface = [] := by
      rw [sortStrings_eq_nil_iff, collectMacs, List.map_eq_nil_iff]
    constructor
    · intro h
      rw [getHardwareId] at h
      by_cases he : (sortStrings (collectMacs ifaces)).isEmpty = true
      · exact hmac.mp (List.isEmpty_iff.mp he)
      · simp only [Bool.not_eq_true] at he
        simp [he] at h
    · intro h
      have he : (sortStrings (collectMacs ifaces)).isEmpty = true :=
        List.isEmpty_iff.mpr (hmac.mpr h)
      simp [getHardwareId, he]

/-- Witness for C6: the interface list of the repository's tests. -/
theorem getHardwareId_filter_spec_witness :
    getHardwareId (Except.ok
        [⟨"lo", true, [0, 0, 0, 0, 0, 0]⟩, ⟨"docker0", false, [2, 66, 0, 0, 0, 0]⟩,
         ⟨"veth1234", false, [2, 66, 0, 0, 0, 1]⟩,
         ⟨"eth0", false, [170, 187, 204, 221, 238, 255]⟩]) =
      Except.ok "aa:bb:cc:dd:ee:ff" :=
  getHardwareId_filter_spec.2.2

/-- C7: the hardware fallback sorts the collected MAC strings, so its
output does not depend on the enumeration order of the interfaces; with
`eth1` (`22:…`) enumerated before `eth0` (`11:…`) it still returns the
sorted `"11:11:11:11:11:11,22:22:22:22:22:22"`. -/
theorem getHardwareId_order_independent (l₁ l₂ : List Iface) :
    (l₁.Perm l₂ → getHardwareId (Except.ok l₁) = getHardwareId (Except.ok l₂)) ∧
    getHardwareId (Except.ok
        [⟨"eth1", false, [34, 34, 34, 34, 34, 34]⟩,
         ⟨"eth0", false, [17, 17, 17, 17, 17, 17]⟩]) =
      Except.ok "11:11:11:11:11:11,22:22:22:22:22:22" := by
  refine ⟨?_, by decide⟩
  intro h
  have hperm : (collectMacs l₁).Perm (collectMacs l₂) := by
    simp only [collectMacs]
    exact (h.filter keepIface).map fun i => macString i.hardwareAddr
  have hsort := sortStrings_eq_of_perm hperm
  simp only [getHardwareId, hsort]

/-- Witness for C7: swapping the two interfaces does not change the id. -/
theorem getHardwareId_order_independent_witness :
    getHardwareId (Except.ok
        [⟨"eth1", false, [34, 34, 34, 34, 34, 34]⟩,
         ⟨"eth0", false, [17, 17, 17, 17, 17, 17]⟩]) =
    getHardwareId (Except.ok
        [⟨"eth0", false, [17, 17, 17, 17, 17, 17]⟩,
         ⟨"eth1", false, [34, 34, 34, 34, 34, 34]⟩]) :=
  (getHardwareId_order_independent
    [⟨"eth1", false, [34, 34, 34, 34, 34, 34]⟩, ⟨"eth0", false, [17, 17, 17, 17, 17, 17]⟩]
    [⟨"eth0", false, [17, 17, 17, 17, 17, 17]⟩, ⟨"eth1", false, [34, 34, 34, 34, 34, 34]⟩]).1
    (List.Perm.swap _ _ _)

/-- C8: on success `ID` returns `tag ++ ":" ++ hash(raw)` and
`ProtectedID appID` returns `tag ++ ":" ++ hash(raw ++ ":" ++ appID)`; the
digest part always has 64 lowercase hex characters; and at the resolved
state of the repository's tests the scoped ids differ from the plain id
and from each other. -/
theorem ID_ProtectedID_format (env : Env) (st : MachineState)
    (h : (loadInfo env st).1 = Except.ok ()) :
    ((ID env st).1 = (protect (loadInfo env st).2.1.cachedRawID).map
        (fun d => (loadInfo env st).2.1.cachedEnvTag ++ ":" ++ d)) ∧
    (∀ appID, (ProtectedID env appID st).1 =
      (protect ((loadInfo env st).2.1.cachedRawID ++ ":" ++ appID)).map
        (fun d => (loadInfo env st).2.1.cachedEnvTag ++ ":" ++ d)) ∧
    (∀ msg : List Nat, (sha256Hex msg).length = 64 ∧
      ∀ c ∈ (sha256Hex msg).data, isLowerHex c = true) ∧
    (ID ⟨"e", Except.ok "x", Except.ok []⟩ ⟨"test-machine-id", "test-env", true⟩).1 =
      Except.ok
        "test-env:9fa52d819a388ed6c394855fe82c664d771f939b2fa1fee83ff3030e9ca2a284" ∧
    (ProtectedID ⟨"e", Except.ok "x", Except.ok []⟩ "app-a"
        ⟨"test-machine-id", "test-env", true⟩).1 =
      Except.ok
        "test-env:c8e895c187edce01aaa7963ef5c6c49fffc4d3150232138a8099c7434450fc91" ∧
    (ProtectedID ⟨"e", Except.ok "x", Except.ok []⟩ "app-b"
        ⟨"test-machine-id", "test-env", true⟩).1 =
      Except.ok
        "test-env:5c5584c3e8d5516431b38cb51d700a0e729c9c62996abae132fce2af810f26bd" ∧
    (ProtectedID ⟨"e", Except.ok "x", Except.ok []⟩ "app-a"
        ⟨"test-machine-id", "test-env", true⟩).1 ≠
      (ID ⟨"e", Except.ok "x", Except.ok []⟩ ⟨"test-machine-id", "test-env", true⟩).1 ∧
    (ProtectedID ⟨"e", Except.ok "x", Except.ok []⟩ "app-a"
        ⟨"test-machine-id", "test-env", true⟩).1 ≠
      (ProtectedID ⟨"e", Except.ok "x", Except.ok []⟩ "app-b"
        ⟨"test-machine-id", "test-env", true⟩).1 := by
  rcases hl : loadInfo env st with ⟨r, st2, cs⟩
  rw [hl] at h
  simp only at h
  subst h
  refine ⟨?_, ?_, fun msg => ⟨sha256Hex_length msg, sha256Hex_lower msg⟩,
    by decide, by decide, by decide, by decide, by decide⟩
  · cases hp : protect st2.cachedRawID with
    | ok v => simp [ID, hl, hp, Except.map]
    | error e => simp [ID, hl, hp, Except.map]
  · intro appID
    cases hp : protect (st2.cachedRawID ++ ":" ++ appID) with
    | ok v => simp [ProtectedID, hl, hp, Except.map]
    | error e => simp [ProtectedID, hl, hp, Except.map]

/-- Witness for C8 at a concrete resolved state. -/
theorem ID_ProtectedID_format_witness :
    (ID ⟨"e", Except.ok "x", Except.ok []⟩ ⟨"test-machine-id", "test-env", true⟩).1 =
      (protect (loadInfo ⟨"e", Except.ok "x", Except.ok []⟩
          ⟨"test-machine-id", "test-env", true⟩).2.1.cachedRawID).map
        (fun d => (loadInfo ⟨"e", Except.ok "x", Except.ok []⟩
            ⟨"test-machine-id", "test-env", true⟩).2.1.cachedEnvTag ++ ":" ++ d) :=
  (ID_ProtectedID_format ⟨"e", Except.ok "x", Except.ok []⟩
    ⟨"test-machine-id", "test-env", true⟩ (by decide)).1

/-- C9, counterexample: a primary source returning the non-empty,
whitespace-only id `"   "` makes `loadInfo` succeed, yet the subsequent
`ID()` call fails with the empty-input hashing error. -/
theorem protect_after_success_counterexample :
    (loadInfo ⟨"physical", Except.ok "   ", Except.ok []⟩ ⟨"", "", false⟩).1 =
      Except.ok () ∧
    (ID ⟨"physical", Except.ok "   ", Except.ok []⟩ ⟨"", "", false⟩).1 =
      Except.error (GoError.msg "empty machine id") :=
  ⟨by decide, by decide⟩

/-- C9, amended: after a successful resolution `ProtectedID` never fails
(the salted input always contains `":"`); `ID` fails only when the cached
raw identity is whitespace-only (possible only for a whitespace-only,
non-empty primary result, since `loadInfo` checks rawness only against
`""`); and every resolution that went through the hardware fallback leaves
an identity that `ID` hashes successfully. -/
theorem id_after_success (env : Env) (st : MachineState) (appID : String)
    (h : (loadInfo env st).1 = Except.ok ()) :
    (∃ v, (ProtectedID env appID st).1 = Except.ok v) ∧
    ((∃ v, (ID env st).1 = Except.ok v) ∨
      (trimSpace (loadInfo env st).2.1.cachedRawID = "" ∧
       (ID env st).1 = Except.error (GoError.msg "empty machine id"))) ∧
    ((env.getMachineID = Except.error GoError.notExist ∨
      env.getMachineID = Except.ok "") →
      st.initialized = false → ∃ v, (ID env st).1 = Except.ok v) := by
  rcases hl : loadInfo env st with ⟨r, st2, cs⟩
  rw [hl] at h
  simp only at h
  subst h
  refine ⟨?_, ?_, ?_⟩
  · have hcolon : (':' : Char) ∈ (st2.cachedRawID ++ ":" ++ appID).toList := by
      show _ ∈ (st2.cachedRawID ++ ":" ++ appID).data
      simp [String.data_append]
    have hne := trimSpace_ne_empty hcolon (by decide)
    have hp : protect (st2.cachedRawID ++ ":" ++ appID) =
        Except.ok (sha256Hex (strBytes (trimSpace (st2.cachedRawID ++ ":" ++ appID)))) := by
      simp only [protect]
      rw [if_neg hne]
    exact ⟨st2.cachedEnvTag ++ ":" ++
        sha256Hex (strBytes (trimSpace (st2.cachedRawID ++ ":" ++ appID))),
      by simp [ProtectedID, hl, hp]⟩
  · by_cases ht : trimSpace st2.cachedRawID = ""
    · right
      have hp : protect st2.cachedRawID = Except.error (GoError.msg "empty machine id") := by
        simp only [protect]
        rw [if_pos ht]
      exact ⟨by simp [hl, ht], by simp [ID, hl, hp]⟩
    · left
      have hp : protect st2.cachedRawID =
          Except.ok (sha256Hex (strBytes (trimSpace st2.cachedRawID))) := by
        simp only [protect]
        rw [if_neg ht]
      exact ⟨st2.cachedEnvTag ++ ":" ++ sha256Hex (strBytes (trimSpace st2.cachedRawID)),
        by simp [ID, hl, hp]⟩
  · intro hfb hinit
    cases hh : getHardwareId env.interfaces with
    | error e2 =>
      exfalso
      rcases hfb with hm | hm <;> simp [loadInfo, hinit, hm, hh] at hl
    | ok hid =>
      have htrim := getHardwareId_ok_trim hh
      have hp : protect hid = Except.ok (sha256Hex (strBytes (trimSpace hid))) := by
        simp only [protect]
        rw [if_neg htrim]
      have hl2 := hl
      rcases hfb with hm | hm
      all_goals simp [loadInfo, hinit, hm, hh] at hl2
      all_goals obtain ⟨hst2, -⟩ := hl2
      all_goals subst hst2
      all_goals
        exact ⟨env.getEnvType ++ ":" ++ sha256Hex (strBytes (trimSpace hid)),
          by simp [ID, hl, hp]⟩

/-- Witness for C9's amended claim at a concrete resolution. -/
theorem id_after_success_witness :
    ∃ v, (ProtectedID ⟨"test-env", Except.ok "test-machine-id", Except.ok []⟩ "my-app"
      ⟨"", "", false⟩).1 = Except.ok v :=
  (id_after_success ⟨"test-env", Except.ok "test-machine-id", Except.ok []⟩
    ⟨"", "", false⟩ "my-app" (by decide)).1

/-- C10: with the unsupported-platform primary source (`id_unknown.go`),
whose error is not a not-found error, `loadInfo` fails on every call with
"os not supported", never invokes the hardware fallback, leaves the state
uninitialized, and `ID`/`ProtectedID` fail on every call. -/
theorem unsupported_platform (env : Env) (st : MachineState) (appID : String)
    (henv : env.getMachineID = getMachineIDUnknown)
    (hinit : st.initialized = false) :
    loadInfo env st = (Except.error (GoError.msg "os not supported"), st, ⟨1, 1, 0⟩) ∧
    (ID env st).1 = Except.error (GoError.msg "os not supported") ∧
    (ProtectedID env appID st).1 = Except.error (GoError.msg "os not supported") ∧
    GoError.msg "os not supported" ≠ GoError.notExist := by
  have hm : env.getMachineID = Except.error (GoError.msg "os not supported") := henv
  have hl : loadInfo env st =
      (Except.error (GoError.msg "os not supported"), st, ⟨1, 1, 0⟩) := by
    simp [loadInfo, hinit, hm]
  exact ⟨hl, by simp [ID, hl], by simp [ProtectedID, hl], by decide⟩

/-- Witness for C10 on the initial process state. -/
theorem unsupported_platform_witness :
    loadInfo ⟨"physical", getMachineIDUnknown, Except.ok []⟩ ⟨"", "", false⟩ =
      (Except.error (GoError.msg "os not supported"), ⟨"", "", false⟩, ⟨1, 1, 0⟩) :=
  (unsupported_platform ⟨"physical", getMachineIDUnknown, Except.ok []⟩
    ⟨"", "", false⟩ "my-app" rfl rfl).1

end MachineId
